import Mathlib

/-!
Verification development for the Ollama protocol-translation relay
(`src/app/api/ollama/route.ts` and `src/app/client/platforms/ollama.ts`).

Strings are modelled as lists of characters (`JStr`), so that the
JavaScript string operations used by the source (`split`, `trim`,
`slice`, `startsWith`, `endsWith`, `includes`, `+`) become ordinary
list operations.  `JSON.parse` is a platform builtin, so the relay is
parameterised by a `parse : JStr → Option ORecord` function; a record
is `none` exactly when `JSON.parse` would throw on that line.  Fields
that the JavaScript code reads optionally (`data.message?.content`,
`data.eval_count`, ...) are `Option`s, with `none` standing for
`undefined`.
-/

namespace NCOllama

abbrev JStr := List Char

/-- One parsed backend JSON record, as the fields the relay reads:
`data.message?.content`, truthiness of `data.done`, `data.eval_count`,
`data.prompt_eval_count` (route.ts lines 146-171, 193-215). -/
structure ORecord where
  content : Option JStr
  done : Bool
  eval_count : Option Nat
  prompt_eval_count : Option Nat
deriving DecidableEq, Repr

/-- One event written by the server relay to its output stream: either a
translated chunk (the `openAIChunk` of route.ts lines 149-163, of which we
keep the data-bearing fields `choices[0].delta.content` and
`choices[0].finish_reason`; `id`, `object`, `created` and `model` are a
fixed time-stamped envelope) or the `data: [DONE]` sentinel
(route.ts line 169). -/
inductive REvent where
  | delta : JStr → Option JStr → REvent
  | doneMark : REvent
deriving DecidableEq, Repr

/-- Translation of one parsed record into the caller-facing chunk:
`content: data.message?.content || ""` and
`finish_reason: data.done ? "stop" : null` (route.ts lines 158-160). -/
def recDelta (r : ORecord) : REvent :=
  REvent.delta (r.content.getD []) (if r.done then some "stop".data else none)

/-- JavaScript `chunk.split('\n')` (route.ts line 142). -/
def splitNl : JStr → List JStr
  | [] => [[]]
  | c :: cs =>
    match splitNl cs with
    | [] => [[c]]
    | g :: gs => if c = '\n' then [] :: g :: gs else (c :: g) :: gs

/-- JavaScript truthiness of `line.trim()`: the line has some
non-whitespace character (route.ts line 142). -/
def jsTrimNonempty (l : JStr) : Bool := l.any (fun c => !c.isWhitespace)

/-- The line-splitting of one decoded transport chunk:
`chunk.split('\n').filter(line => line.trim())` (route.ts line 142). -/
def splitLines (chunk : JStr) : List JStr :=
  (splitNl chunk).filter jsTrimNonempty

/-- The inner `for (const line of lines)` loop of route.ts lines 144-175:
a line that fails to parse is skipped (the catch at line 172); a parsed
record is translated and enqueued (line 166); if its `done` flag is set the
`[DONE]` sentinel is enqueued and the loop over the current chunk's lines
is exited (`break` at line 170). -/
def processLines (parse : JStr → Option ORecord) : List JStr → List REvent
  | [] => []
  | l :: ls =>
    match parse l with
    | none => processLines parse ls
    | some r =>
      if r.done then [recDelta r, REvent.doneMark]
      else recDelta r :: processLines parse ls

/-- Processing of one decoded transport chunk (route.ts lines 141-175). -/
def processChunk (parse : JStr → Option ORecord) (c : JStr) : List REvent :=
  processLines parse (splitLines c)

/-- The `while (true)` read loop of route.ts lines 134-176: chunks are read
until the backend stream is exhausted; each chunk is decoded, split and
processed with no state carried from one chunk to the next (the inner
`break` at line 170 only exits the per-chunk `for` loop, after which the
`while` loop reads the next chunk). -/
def relay (parse : JStr → Option ORecord) : List JStr → List REvent
  | [] => []
  | c :: cs => processChunk parse c ++ relay parse cs

/-- Concatenation of the content fragments carried by the emitted
content-delta events. -/
def deltaConcat : List REvent → JStr
  | [] => []
  | REvent.delta c _ :: es => c ++ deltaConcat es
  | REvent.doneMark :: es => deltaConcat es

/-- Number of `[DONE]` sentinels in an emitted event sequence. -/
def countDoneMarks (es : List REvent) : Nat :=
  es.countP (fun e => match e with | REvent.doneMark => true | _ => false)

/-- Whether nothing follows a `[DONE]` sentinel in an emitted sequence. -/
def stopsAtDone : List REvent → Bool
  | [] => true
  | REvent.doneMark :: es => es.isEmpty
  | REvent.delta _ _ :: es => stopsAtDone es

/-- The events strictly preceding the first `[DONE]` sentinel. -/
def untilDone : List REvent → List REvent
  | [] => []
  | REvent.doneMark :: _ => []
  | e :: es => e :: untilDone es

/-- The `message.content` fields (defaulted as by `|| ""`) of the records
among `ls` that parse, in order. -/
def lineContents (parse : JStr → Option ORecord) (ls : List JStr) : List JStr :=
  (ls.filterMap parse).map (fun r => r.content.getD [])

/-- The record contents of one transport chunk. -/
def chunkContents (parse : JStr → Option ORecord) (c : JStr) : List JStr :=
  lineContents parse (splitLines c)

/-- Concatenation of all record contents of a backend stream, in arrival
order. -/
def streamText (parse : JStr → Option ORecord) (chunks : List JStr) : JStr :=
  ((chunks.map (chunkContents parse)).flatten).flatten

/-- The record under `parse`, if any, has a false completion flag. -/
def optDoneFalse : Option ORecord → Prop
  | none => True
  | some r => r.done = false

instance (o : Option ORecord) : Decidable (optDoneFalse o) :=
  match o with
  | none => Decidable.isTrue trivial
  | some r => inferInstanceAs (Decidable (r.done = false))

/-- No line of `ls` parses to a completion-flagged record. -/
def doneFree (parse : JStr → Option ORecord) (ls : List JStr) : Prop :=
  ∀ l ∈ ls, optDoneFalse (parse l)

/-- No line of `ls` other than possibly the last parses to a
completion-flagged record. -/
def doneFreeTail (parse : JStr → Option ORecord) (ls : List JStr) : Prop :=
  ∀ l ∈ ls.dropLast, optDoneFalse (parse l)

/-! Client-side stream consumer (ollama.ts lines 125-203). -/

/-- The closure state of `OllamaApi.chat` in streaming mode: the
accumulated `responseText`, the `finished` guard, and — as observation
logs — the arguments delivered to `options.onFinish` and the cumulative
texts delivered to `options.onUpdate` (ollama.ts lines 126-137, 188-189). -/
structure CState where
  responseText : JStr
  finished : Bool
  finishCalls : List JStr
  updates : List JStr
deriving DecidableEq, Repr

/-- Fresh per-exchange state: `responseText = ""`, `finished = false`
(ollama.ts lines 126-128). -/
def initCState : CState := ⟨[], false, [], []⟩

/-- The shared `finish` routine (ollama.ts lines 130-135): if not yet
finished, deliver `responseText` via `options.onFinish` and set the
guard; otherwise do nothing. -/
def finish (s : CState) : CState :=
  if s.finished then s
  else { s with finished := true, finishCalls := s.finishCalls ++ [s.responseText] }

/-- One server-sent event as seen by `onmessage` (ollama.ts line 179):
the `[DONE]` sentinel, a payload whose parsed `choices[0].delta.content`
is `delta` (`none` when absent), or data `JSON.parse` throws on. -/
inductive SMsg where
  | doneSentinel : SMsg
  | payload : Option JStr → SMsg
  | unparsable : SMsg
deriving DecidableEq, Repr

/-- The `onmessage` callback (ollama.ts lines 179-194): `[DONE]` or an
already-finished exchange routes to `finish`; otherwise the payload is
parsed, and a truthy `delta` is appended to `responseText` and reported
via `onUpdate`; a parse failure is logged and skipped. -/
def onmessage (s : CState) (m : SMsg) : CState :=
  match m with
  | SMsg.doneSentinel => finish s
  | SMsg.payload d =>
    if s.finished then finish s
    else
      match d with
      | some t =>
        if t = [] then s
        else { s with responseText := s.responseText ++ t,
                      updates := s.updates ++ [s.responseText ++ t] }
      | none => s
  | SMsg.unparsable => if s.finished then finish s else s

/-- Delivery of a sequence of server-sent events to `onmessage`. -/
def runClient (s : CState) (ms : List SMsg) : CState := ms.foldl onmessage s

/-- The wire between the two sides: the server writes
`data: ${JSON.stringify(openAIChunk)}\n\n` or `data: [DONE]\n\n`
(route.ts lines 165-169); the event-source layer hands `msg.data` to the
client, which reads back `choices[0].delta.content`
(ollama.ts lines 180-186). -/
def eventToMsg : REvent → SMsg
  | REvent.delta c _ => SMsg.payload (some c)
  | REvent.doneMark => SMsg.doneSentinel

/-! Non-streaming fallback path (route.ts lines 192-218,
ollama.ts lines 75-77 and 204-211). -/

/-- Reported token usage of the non-streaming server response
(route.ts lines 211-215). -/
structure UsageInfo where
  prompt_tokens : Nat
  completion_tokens : Nat
  total_tokens : Nat
deriving DecidableEq, Repr

/-- Content of the non-streaming server response:
`data.message?.content || ""` (route.ts line 206). -/
def nonStreamContent (d : ORecord) : JStr := d.content.getD []

/-- Usage of the non-streaming server response:
`prompt_eval_count || 0`, `eval_count || 0` and their sum
(route.ts lines 211-215). -/
def nonStreamUsage (d : ORecord) : UsageInfo :=
  ⟨d.prompt_eval_count.getD 0, d.eval_count.getD 0,
   d.prompt_eval_count.getD 0 + d.eval_count.getD 0⟩

/-- The client's `extractMessage`:
`res.choices?.at(0)?.message?.content ?? ""` (ollama.ts lines 75-77). -/
def extractMessage (content : Option JStr) : JStr := content.getD []

/-- Final text the caller receives on the non-streaming path: the server
places `nonStreamContent d` into `choices[0].message.content`
(route.ts lines 201-210) and the client extracts it and passes it to
`options.onFinish` (ollama.ts lines 208-210). -/
def nonStreamFinal (d : ORecord) : JStr := extractMessage (some (nonStreamContent d))

/-! Outbound request translation. -/

/-- Client-side model configuration fields read by `OllamaApi.chat`
(ollama.ts lines 85-102).  Sampling parameters are passed through
without arithmetic, so their number type is abstract (`α`). -/
structure ClientModelConfig (α : Type) where
  model : JStr
  temperature : α
  presence_penalty : α
  frequency_penalty : α
  top_p : α
  max_tokens : Nat
deriving DecidableEq, Repr

/-- The client-side `requestPayload` (ollama.ts lines 93-102). -/
structure ClientRequestPayload (α : Type) where
  messages : List (JStr × JStr)
  stream : Bool
  model : JStr
  temperature : α
  presence_penalty : α
  frequency_penalty : α
  top_p : α
  max_tokens : Nat
deriving DecidableEq, Repr

/-- Construction of the client-side `requestPayload`
(ollama.ts lines 93-102): every field is copied from the model
configuration except `max_tokens`, which is
`Math.max(modelConfig.max_tokens, 1024)`.  The messages are the
caller's messages with their text content already extracted (the
external `getMessageTextContent` collaborator, ollama.ts lines 80-83). -/
def mkRequestPayload (α : Type) (cfg : ClientModelConfig α)
    (msgs : List (JStr × JStr)) (stream : Bool) : ClientRequestPayload α :=
  { messages := msgs, stream := stream, model := cfg.model,
    temperature := cfg.temperature, presence_penalty := cfg.presence_penalty,
    frequency_penalty := cfg.frequency_penalty, top_p := cfg.top_p,
    max_tokens := max cfg.max_tokens 1024 }

/-- The generic (OpenAI-style) request body received by the server
handler (route.ts lines 48, 72-81): every field the caller may omit is
an `Option`. -/
structure GenericBody (α : Type) where
  model : JStr
  messages : List (JStr × JStr)
  stream : Option Bool
  temperature : Option α
  top_p : Option α
  max_tokens : Option Nat
deriving DecidableEq, Repr

/-- The `options` sub-structure of the backend-native request
(route.ts lines 76-80). -/
structure OllamaOptions (α : Type) where
  temperature : Option α
  top_p : Option α
  num_predict : Option Nat
deriving DecidableEq, Repr

/-- The backend-native request body (route.ts lines 72-81). -/
structure OllamaRequest (α : Type) where
  model : JStr
  messages : List (JStr × JStr)
  stream : Bool
  options : OllamaOptions α
deriving DecidableEq, Repr

/-- The server-side outbound translation `ollamaRequest`
(route.ts lines 72-81): `model` and `messages` are copied,
`stream` is `requestBody.stream ?? true`, and the options regroup
`temperature`, `top_p` and `max_tokens` (the latter renamed
`num_predict`) unchanged — an absent field stays absent. -/
def toOllamaRequest (α : Type) (b : GenericBody α) : OllamaRequest α :=
  { model := b.model, messages := b.messages, stream := b.stream.getD true,
    options := ⟨b.temperature, b.top_p, b.max_tokens⟩ }

/-! Endpoint URL construction. -/

/-- JavaScript `s.includes(sub)`. -/
def jsIncludes (sub : JStr) : JStr → Bool
  | [] => sub.isPrefixOf ([] : JStr)
  | c :: cs => sub.isPrefixOf (c :: cs) || jsIncludes sub cs

/-- Removal of one trailing slash:
`if (baseUrl.endsWith("/")) baseUrl = baseUrl.slice(0, -1)`
(route.ts lines 56-58; the client's `slice(0, length - 1)` at
ollama.ts lines 62-64 is the same operation). -/
def stripTrailingSlash (s : JStr) : JStr :=
  if s.getLast? = some '/' then s.dropLast else s

/-- The server-side fetch URL (route.ts lines 50-58 and 83): an empty
configured URL falls back to the example endpoint; a URL without
`"://"` is prefixed with `http://`; one trailing slash is stripped; the
chat path is joined with a single `/`. -/
def serverFetchUrl (ollamaUrl exampleEndpoint chatPath : JStr) : JStr :=
  let b0 := if ollamaUrl = [] then exampleEndpoint else ollamaUrl
  let b1 := if jsIncludes "://".data b0 then b0 else "http://".data ++ b0
  let b2 := stripTrailingSlash b1
  b2 ++ '/' :: chatPath

/-- The client-side `OllamaApi.path` (ollama.ts lines 47-73): the custom
URL is used when custom config is on, an empty base falls back to
`DEFAULT_API_HOST` (plus the internal API path when running as app), one
trailing slash is stripped, `https://` is prefixed when the base starts
with neither `"http"` nor the internal API path, and the path segment is
joined with a single `/`. -/
def clientPathUrl (useCustomConfig isApp : Bool)
    (ollamaUrl defaultApiHost apiPathOllama pathSeg : JStr) : JStr :=
  let b0 := if useCustomConfig then ollamaUrl else []
  let b1 := if b0 = [] then defaultApiHost ++ (if isApp then apiPathOllama else []) else b0
  let b2 := if b1.getLast? = some '/' then b1.dropLast else b1
  let b3 := if !("http".data.isPrefixOf b2) && !(apiPathOllama.isPrefixOf b2)
            then "https://".data ++ b2 else b2
  b3 ++ '/' :: pathSeg

/-! Authorization gate of the server handler (route.ts lines 39-45). -/

/-- Result of the external `auth` collaborator as the handler reads it:
the truthiness of `authResult.error`, plus the rest of the structured
body it echoes back. -/
structure AuthResult where
  error : Bool
  msg : JStr
deriving DecidableEq, Repr

/-- What the handler commits to before any response handling: either an
immediate 401 echoing the auth result, or a backend fetch to the
translated URL with the translated body. -/
inductive GateOutcome (α : Type) where
  | unauthorized : Nat → AuthResult → GateOutcome α
  | forward : JStr → OllamaRequest α → GateOutcome α
deriving DecidableEq, Repr

/-- The entry of `requestOllama` (route.ts lines 39-45, 50-58, 72-100):
a failed auth check returns HTTP 401 with the auth result as body and
reaches no further code; otherwise the backend fetch is issued at the
translated URL with the translated body. -/
def requestOllamaGate (α : Type) (authResult : AuthResult)
    (ollamaUrl exampleEndpoint chatPath : JStr) (body : GenericBody α) :
    GateOutcome α :=
  if authResult.error then GateOutcome.unauthorized 401 authResult
  else GateOutcome.forward (serverFetchUrl ollamaUrl exampleEndpoint chatPath)
        (toOllamaRequest α body)

/-! Concrete backend lines used by the spec's worked example and by the
witnesses, together with a parse oracle that agrees with `JSON.parse` on
them.  (`\x7b` and `\x7d` are the brace characters.) -/

/-- The example line `{"message":{"content":"Hi"},"done":false}`. -/
def jHi : String := "\x7b\"message\":\x7b\"content\":\"Hi\"\x7d,\"done\":false\x7d"

/-- The example line
`{"message":{"content":" there"},"done":true,"eval_count":3,"prompt_eval_count":5}`. -/
def jThere : String :=
  "\x7b\"message\":\x7b\"content\":\" there\"\x7d,\"done\":true,\"eval_count\":3,\"prompt_eval_count\":5\x7d"

/-- As `jThere` but with usage counters 999 and 7. -/
def jThereAlt : String :=
  "\x7b\"message\":\x7b\"content\":\" there\"\x7d,\"done\":true,\"eval_count\":999,\"prompt_eval_count\":7\x7d"

/-- The line `{"message":{"content":"A"},"done":true}`. -/
def jA : String := "\x7b\"message\":\x7b\"content\":\"A\"\x7d,\"done\":true\x7d"

/-- The line `{"message":{"content":"B"},"done":false}`. -/
def jB : String := "\x7b\"message\":\x7b\"content\":\"B\"\x7d,\"done\":false\x7d"

/-- First half of the record `{"message":{"content":"X"},"done":false}`
when it is cut between two transport chunks. -/
def jHalfA : String := "\x7b\"message\":\x7b\"con"

/-- Second half of the cut record. -/
def jHalfB : String := "tent\":\"X\"\x7d,\"done\":false\x7d"

/-- The behaviour of `JSON.parse` followed by the relay's field reads on
the concrete lines above: each whole line yields its record, and any
other text — in particular either half of the cut record — is not valid
JSON, so parsing fails. -/
def exParse (l : JStr) : Option ORecord :=
  if l = jHi.data then some ⟨some "Hi".data, false, none, none⟩
  else if l = jThere.data then some ⟨some " there".data, true, some 3, some 5⟩
  else if l = jThereAlt.data then some ⟨some " there".data, true, some 999, some 7⟩
  else if l = jA.data then some ⟨some "A".data, true, none, none⟩
  else if l = jB.data then some ⟨some "B".data, false, none, none⟩
  else none

/-- Book-keeping invariant of the client exchange: the number of
`onFinish` deliveries is 1 when the `finished` guard is set and 0
otherwise. -/
def okState (s : CState) : Prop :=
  s.finishCalls.length = (if s.finished then 1 else 0)

/-- A backend stream in which a completion-flagged record can only be
the globally last record: every chunk before the last is free of
completion-flagged records, and in the last chunk only the final line
may carry one. -/
def goodChunks (parse : JStr → Option ORecord) : List JStr → Prop
  | [] => True
  | [c] => doneFreeTail parse (splitLines c)
  | c :: cs => doneFree parse (splitLines c) ∧ goodChunks parse cs

instance (parse : JStr → Option ORecord) (ls : List JStr) :
    Decidable (doneFree parse ls) :=
  List.decidableBAll _ ls

instance (parse : JStr → Option ORecord) (ls : List JStr) :
    Decidable (doneFreeTail parse ls) :=
  List.decidableBAll _ ls.dropLast

/-- Decidability of `goodChunks`, by recursion on the chunk list. -/
def goodChunksDecAux (parse : JStr → Option ORecord) :
    (cs : List JStr) → Decidable (goodChunks parse cs)
  | [] => Decidable.isTrue trivial
  | [c] => inferInstanceAs (Decidable (doneFreeTail parse (splitLines c)))
  | c :: c2 :: cs =>
    haveI := goodChunksDecAux parse (c2 :: cs)
    inferInstanceAs (Decidable (doneFree parse (splitLines c) ∧ goodChunks parse (c2 :: cs)))

instance (parse : JStr → Option ORecord) (cs : List JStr) :
    Decidable (goodChunks parse cs) := goodChunksDecAux parse cs

/-! Helper lemmas about the server relay. -/

theorem deltaConcat_append (es fs : List REvent) :
    deltaConcat (es ++ fs) = deltaConcat es ++ deltaConcat fs := by
  induction es with
  | nil => rfl
  | cons e es ih =>
    cases e with
    | delta c f => simp [deltaConcat, ih, List.append_assoc]
    | doneMark => simp [deltaConcat, ih]

theorem doneFreeTail_cons {parse : JStr → Option ORecord} {l : JStr}
    {ls : List JStr} (h : doneFreeTail parse (l :: ls)) :
    doneFreeTail parse ls := by
  intro x hx
  cases ls with
  | nil => simp at hx
  | cons b bs =>
    exact h x (by rw [List.dropLast_cons₂]; exact List.mem_cons_of_mem l hx)

theorem doneFreeTail_head {parse : JStr → Option ORecord} {l b : JStr}
    {bs : List JStr} (h : doneFreeTail parse (l :: b :: bs)) :
    optDoneFalse (parse l) :=
  h l (by rw [List.dropLast_cons₂]; exact List.mem_cons_self l _)

theorem doneFree_cons {parse : JStr → Option ORecord} {l : JStr}
    {ls : List JStr} (h : doneFree parse (l :: ls)) : doneFree parse ls :=
  fun x hx => h x (List.mem_cons_of_mem l hx)

theorem processLines_cons_none {parse : JStr → Option ORecord} {l : JStr}
    {ls : List JStr} (hp : parse l = none) :
    processLines parse (l :: ls) = processLines parse ls := by
  simp [processLines, hp]

theorem processLines_cons_done {parse : JStr → Option ORecord} {l : JStr}
    {ls : List JStr} {r : ORecord} (hp : parse l = some r) (hd : r.done = true) :
    processLines parse (l :: ls) = [recDelta r, REvent.doneMark] := by
  simp [processLines, hp, hd]

theorem processLines_cons_notdone {parse : JStr → Option ORecord} {l : JStr}
    {ls : List JStr} {r : ORecord} (hp : parse l = some r) (hd : r.done = false) :
    processLines parse (l :: ls) = recDelta r :: processLines parse ls := by
  simp [processLines, hp, hd]

theorem lineContents_cons_none {parse : JStr → Option ORecord} {l : JStr}
    {ls : List JStr} (hp : parse l = none) :
    lineContents parse (l :: ls) = lineContents parse ls := by
  simp [lineContents, List.filterMap_cons, hp]

theorem lineContents_cons_some {parse : JStr → Option ORecord} {l : JStr}
    {ls : List JStr} {r : ORecord} (hp : parse l = some r) :
    lineContents parse (l :: ls) = r.content.getD [] :: lineContents parse ls := by
  simp [lineContents, List.filterMap_cons, hp]

theorem deltaConcat_processLines (parse : JStr → Option ORecord) :
    ∀ ls : List JStr, doneFreeTail parse ls →
      deltaConcat (processLines parse ls) = (lineContents parse ls).flatten := by
  intro ls
  induction ls with
  | nil => intro _; rfl
  | cons l ls ih =>
    intro h
    cases hp : parse l with
    | none =>
      rw [processLines_cons_none hp, lineContents_cons_none hp]
      exact ih (doneFreeTail_cons h)
    | some r =>
      cases ls with
      | nil =>
        rw [lineContents_cons_some hp]
        by_cases hd : r.done
        · rw [processLines_cons_done hp hd]
          simp [deltaConcat, recDelta, lineContents]
        · rw [processLines_cons_notdone hp (by simpa using hd)]
          simp [deltaConcat, recDelta, lineContents]
      | cons b bs =>
        have hrd : r.done = false := by
          have := doneFreeTail_head h
          rw [hp] at this
          exact this
        rw [processLines_cons_notdone hp hrd, lineContents_cons_some hp]
        simp [deltaConcat, recDelta, ih (doneFreeTail_cons h)]

theorem processLines_of_doneFree (parse : JStr → Option ORecord) :
    ∀ ls : List JStr, doneFree parse ls →
      processLines parse ls = ((ls.filterMap parse).map recDelta) := by
  intro ls
  induction ls with
  | nil => intro _; rfl
  | cons l ls ih =>
    intro h
    cases hp : parse l with
    | none =>
      rw [processLines_cons_none hp, List.filterMap_cons_none hp]
      exact ih (doneFree_cons h)
    | some r =>
      have hrd : r.done = false := by
        have := h l (List.mem_cons_self l ls)
        rw [hp] at this
        exact this
      rw [processLines_cons_notdone hp hrd, List.filterMap_cons_some hp,
        List.map_cons, ih (doneFree_cons h)]

theorem doneMark_not_mem_map_recDelta (rs : List ORecord) :
    REvent.doneMark ∉ rs.map recDelta := by
  intro h
  obtain ⟨r, _, hr⟩ := List.mem_map.mp h
  simp [recDelta] at hr

theorem untilDone_append_of_noDone (es fs : List REvent)
    (h : REvent.doneMark ∉ es) :
    untilDone (es ++ fs) = es ++ untilDone fs := by
  induction es with
  | nil => rfl
  | cons e es ih =>
    cases e with
    | delta c f =>
      exact congrArg (List.cons (REvent.delta c f))
        (ih (fun hm => h (List.mem_cons_of_mem _ hm)))
    | doneMark => exact absurd (List.mem_cons_self _ _) h

theorem deltaConcat_map_recDelta (rs : List ORecord) :
    deltaConcat (rs.map recDelta) =
      (rs.map (fun r => r.content.getD [])).flatten := by
  induction rs with
  | nil => rfl
  | cons r rs ih => simp [recDelta, deltaConcat, ih]

theorem untilDone_processLines (parse : JStr → Option ORecord) :
    ∀ ls : List JStr, doneFreeTail parse ls →
      deltaConcat (untilDone (processLines parse ls)) =
        (lineContents parse ls).flatten := by
  intro ls
  induction ls with
  | nil => intro _; rfl
  | cons l ls ih =>
    intro h
    cases hp : parse l with
    | none =>
      rw [processLines_cons_none hp, lineContents_cons_none hp]
      exact ih (doneFreeTail_cons h)
    | some r =>
      cases ls with
      | nil =>
        rw [lineContents_cons_some hp]
        by_cases hd : r.done
        · rw [processLines_cons_done hp hd]
          simp [deltaConcat, recDelta, untilDone, lineContents]
        · rw [processLines_cons_notdone hp (by simpa using hd)]
          simp [deltaConcat, recDelta, untilDone, lineContents]
      | cons b bs =>
        have hrd : r.done = false := by
          have := doneFreeTail_head h
          rw [hp] at this
          exact this
        rw [processLines_cons_notdone hp hrd, lineContents_cons_some hp]
        simp [untilDone, deltaConcat, recDelta, ih (doneFreeTail_cons h)]

theorem streamText_cons (parse : JStr → Option ORecord) (c : JStr)
    (cs : List JStr) :
    streamText parse (c :: cs) =
      (chunkContents parse c).flatten ++ streamText parse cs := by
  simp [streamText, List.flatten_append]

theorem relay_untilDone (parse : JStr → Option ORecord) :
    ∀ chunks : List JStr, goodChunks parse chunks →
      deltaConcat (untilDone (relay parse chunks)) = streamText parse chunks := by
  intro chunks
  induction chunks with
  | nil => intro _; rfl
  | cons c cs ih =>
    intro h
    cases cs with
    | nil =>
      have h1 : doneFreeTail parse (splitLines c) := h
      have := untilDone_processLines parse (splitLines c) h1
      simp only [relay, processChunk, List.append_nil, streamText_cons]
      simp [streamText, chunkContents, this]
    | cons c2 cs2 =>
      obtain ⟨hc, hrest⟩ := h
      have hpc : processChunk parse c = ((splitLines c).filterMap parse).map recDelta :=
        processLines_of_doneFree parse _ hc
      rw [relay, streamText_cons, hpc,
        untilDone_append_of_noDone _ _ (doneMark_not_mem_map_recDelta _),
        deltaConcat_append, deltaConcat_map_recDelta, ih hrest]
      rfl

/-! Helper lemmas about the client-side consumer. -/

theorem finish_finished (s : CState) : (finish s).finished = true := by
  by_cases h : s.finished <;> simp [finish, h]

theorem finish_of_finished {s : CState} (h : s.finished = true) : finish s = s := by
  simp [finish, h]

theorem finish_of_not_finished {s : CState} (h : s.finished = false) :
    finish s = { s with finished := true,
                        finishCalls := s.finishCalls ++ [s.responseText] } := by
  simp [finish, h]

theorem onmessage_of_finished (s : CState) (m : SMsg) (h : s.finished = true) :
    onmessage s m = s := by
  cases m with
  | doneSentinel => exact finish_of_finished h
  | payload d => simp [onmessage, h, finish_of_finished h]
  | unparsable => simp [onmessage, h, finish_of_finished h]

theorem runClient_of_finished (ms : List SMsg) (s : CState)
    (h : s.finished = true) : runClient s ms = s := by
  induction ms with
  | nil => rfl
  | cons m ms ih =>
    show runClient (onmessage s m) ms = s
    rw [onmessage_of_finished s m h]
    exact ih

theorem onmessage_payload_empty {s : CState} (hf : s.finished = false) :
    onmessage s (SMsg.payload (some [])) = s := by
  simp [onmessage, hf]

theorem onmessage_payload_text {s : CState} {t : JStr} (hf : s.finished = false)
    (ht : t ≠ []) :
    onmessage s (SMsg.payload (some t)) =
      { s with responseText := s.responseText ++ t,
               updates := s.updates ++ [s.responseText ++ t] } := by
  simp [onmessage, hf, ht]

theorem okState_finish {s : CState} (h : okState s) : okState (finish s) := by
  cases hf : s.finished with
  | true => rw [finish_of_finished hf]; exact h
  | false =>
    rw [finish_of_not_finished hf]
    simp [okState, hf] at h
    simp [okState, h]

theorem okState_onmessage {s : CState} (m : SMsg) (h : okState s) :
    okState (onmessage s m) := by
  cases m with
  | doneSentinel => exact okState_finish h
  | payload d =>
    cases hf : s.finished with
    | true => simpa [onmessage, hf, finish_of_finished hf] using h
    | false =>
      cases d with
      | some t =>
        by_cases ht : t = []
        · simpa [onmessage, hf, ht] using h
        · rw [onmessage_payload_text hf ht]
          simpa [okState, hf] using h
      | none => simpa [onmessage, hf] using h
  | unparsable =>
    cases hf : s.finished with
    | true => simpa [onmessage, hf, finish_of_finished hf] using h
    | false => simpa [onmessage, hf] using h

theorem okState_run (ms : List SMsg) (s : CState) (h : okState s) :
    okState (runClient s ms) := by
  induction ms generalizing s with
  | nil => exact h
  | cons m ms ih => exact ih (onmessage s m) (okState_onmessage m h)

theorem runClient_finish (es : List REvent) :
    ∀ s : CState, s.finished = false →
      (finish (runClient s (es.map eventToMsg))).finishCalls =
        s.finishCalls ++ [s.responseText ++ deltaConcat (untilDone es)] := by
  induction es with
  | nil =>
    intro s hs
    simp [runClient, finish_of_not_finished hs, untilDone, deltaConcat]
  | cons e es ih =>
    intro s hs
    cases e with
    | delta c f =>
      show (finish (runClient (onmessage s (SMsg.payload (some c))) (es.map eventToMsg))).finishCalls = _
      by_cases hc : c = []
      · subst hc
        rw [onmessage_payload_empty hs, ih s hs]
        simp [untilDone, deltaConcat]
      · rw [onmessage_payload_text hs hc]
        rw [ih { s with responseText := s.responseText ++ c,
                        updates := s.updates ++ [s.responseText ++ c] } hs]
        simp [untilDone, deltaConcat, List.append_assoc]
    | doneMark =>
      show (finish (runClient (onmessage s SMsg.doneSentinel) (es.map eventToMsg))).finishCalls = _
      have h1 : onmessage s SMsg.doneSentinel = finish s := rfl
      rw [h1, runClient_of_finished _ _ (finish_finished s),
        finish_of_finished (finish_finished s), finish_of_not_finished hs]
      simp [untilDone, deltaConcat]

/-! Claim theorems. -/

/-- C1 (amended): for a well-formed line-delimited backend stream (each
transport chunk only complete lines, each non-blank line parsing to a
record) in which a completion-flagged record only ever occupies the last
line of its transport chunk, the concatenation of the content-delta
fragments emitted by the server relay equals the concatenation of the
backend records' `message.content` fields, in arrival order.  (Without
the position restriction the equality fails: lines that follow a
`done:true` record inside the same chunk are skipped by the `break` at
route.ts line 170, see the counterexample.) -/
theorem relay_concat_ok (parse : JStr → Option ORecord) (chunks : List JStr)
    (hwf : ∀ c ∈ chunks, ∀ l ∈ splitLines c, (parse l).isSome = true)
    (hdone : ∀ c ∈ chunks, doneFreeTail parse (splitLines c)) :
    deltaConcat (relay parse chunks) = streamText parse chunks := by
  induction chunks with
  | nil => rfl
  | cons c cs ih =>
    rw [relay, streamText_cons, deltaConcat_append,
      show processChunk parse c = processLines parse (splitLines c) from rfl,
      deltaConcat_processLines parse _ (hdone c (List.mem_cons_self c cs)),
      ih (fun x hx => hwf x (List.mem_cons_of_mem c hx))
         (fun x hx => hdone x (List.mem_cons_of_mem c hx))]
    rfl

/-- Witness for C1: the spec's two-line stream, one line per transport
chunk, concatenates to `"Hi there"` on both sides. -/
theorem relay_concat_ok_witness :
    deltaConcat (relay exParse [jHi.data, jThere.data]) =
      streamText exParse [jHi.data, jThere.data] :=
  relay_concat_ok exParse [jHi.data, jThere.data] (by decide) (by decide)

/-- Counterexample to C1 as stated: the well-formed single-chunk stream
whose two complete lines are `{"message":{"content":"A"},"done":true}`
and `{"message":{"content":"B"},"done":false}` emits only `"A"` while the
backend records' contents concatenate to `"AB"` — the second record is
dropped by the `break` at route.ts line 170. -/
theorem relay_concat_cex :
    (∀ l ∈ splitLines (jA.data ++ '\n' :: jB.data), (exParse l).isSome = true) ∧
    deltaConcat (relay exParse [jA.data ++ '\n' :: jB.data]) = "A".data ∧
    streamText exParse [jA.data ++ '\n' :: jB.data] = "AB".data ∧
    ("A".data : JStr) ≠ "AB".data :=
  ⟨by decide, by decide, by decide, by decide⟩

/-- C3 (amended): when the server relay parses a record whose completion
flag is true, it emits the translated delta and the terminal marker and
stops processing the remaining lines of the current transport chunk
only; the read loop then continues with subsequent transport chunks
(whose records are still translated and emitted, after the terminal
marker), and the output stream is closed when the backend stream is
exhausted rather than at the completion-flagged record. -/
theorem done_breaks_chunk_only (parse : JStr → Option ORecord)
    (pre post : List JStr) (l : JStr) (r : ORecord)
    (hl : parse l = some r) (hd : r.done = true) :
    processLines parse (pre ++ l :: post) = processLines parse (pre ++ [l]) ∧
    (∀ (c : JStr) (cs : List JStr),
      relay parse (c :: cs) = processChunk parse c ++ relay parse cs) := by
  constructor
  · induction pre with
    | nil => rw [List.nil_append, List.nil_append,
        processLines_cons_done hl hd, processLines_cons_done hl hd]
    | cons p ps ih =>
      rw [List.cons_append, List.cons_append]
      cases hp : parse p with
      | none => rw [processLines_cons_none hp, processLines_cons_none hp, ih]
      | some q =>
        cases hq : q.done with
        | true => rw [processLines_cons_done hp hq, processLines_cons_done hp hq]
        | false => rw [processLines_cons_notdone hp hq,
            processLines_cons_notdone hp hq, ih]
  · intro c cs; rfl

/-- Witness for C3: with the `done:true` record `jA` first, the line `jB`
behind it in the same chunk is not processed. -/
theorem done_breaks_chunk_only_witness :
    processLines exParse [jA.data, jB.data] = processLines exParse [jA.data] :=
  (done_breaks_chunk_only exParse [] [jB.data] jA.data
    ⟨some "A".data, true, none, none⟩ (by decide) rfl).1

/-- Counterexample to C3 as stated: after the terminal marker produced by
the `done:true` record in the first transport chunk, the relay still
consumes the second transport chunk and emits its record — reading does
not stop and events do follow the terminal marker. -/
theorem done_not_stop_reading_cex :
    relay exParse [jA.data, jB.data] =
      [REvent.delta "A".data (some "stop".data), REvent.doneMark,
       REvent.delta "B".data none] ∧
    stopsAtDone (relay exParse [jA.data, jB.data]) = false :=
  ⟨by decide, by decide⟩

/-- C5: a line that fails to parse is logged and skipped on both sides —
the server relay produces the same events as if the malformed line were
absent, so every valid line after it is still translated and emitted,
and the client-side `onmessage` leaves its state unchanged on a parse
failure. -/
theorem malformed_line_skipped (parse : JStr → Option ORecord) (l : JStr)
    (h : parse l = none) :
    (∀ pre post : List JStr,
      processLines parse (pre ++ l :: post) = processLines parse (pre ++ post)) ∧
    (∀ s : CState, onmessage s SMsg.unparsable = s) := by
  constructor
  · intro pre post
    induction pre with
    | nil => rw [List.nil_append, List.nil_append, processLines_cons_none h]
    | cons p ps ih =>
      rw [List.cons_append, List.cons_append]
      cases hp : parse p with
      | none => rw [processLines_cons_none hp, processLines_cons_none hp, ih]
      | some q =>
        cases hq : q.done with
        | true => rw [processLines_cons_done hp hq, processLines_cons_done hp hq]
        | false => rw [processLines_cons_notdone hp hq,
            processLines_cons_notdone hp hq, ih]
  · intro s
    cases hs : s.finished with
    | true => simp [onmessage, finish_of_finished hs, hs]
    | false => simp [onmessage, hs]

/-- Witness for C5: a malformed half-record line before the valid `jHi`
line changes nothing. -/
theorem malformed_line_skipped_witness :
    processLines exParse [jHalfA.data, jHi.data] =
      processLines exParse [jHi.data] :=
  (malformed_line_skipped exParse jHalfA.data (by decide)).1 [] [jHi.data]

/-- C9: the server relay carries no state from one transport chunk to the
next — its output is the per-chunk outputs concatenated — so when both
halves of a JSON record cut across two transport chunks fail to parse,
nothing at all is emitted for that record. -/
theorem no_cross_chunk_buffering (parse : JStr → Option ORecord) :
    (∀ chunks : List JStr,
      relay parse chunks = (chunks.map (processChunk parse)).flatten) ∧
    (∀ c1 c2 : JStr, (∀ l ∈ splitLines c1 ++ splitLines c2, parse l = none) →
      relay parse [c1, c2] = []) := by
  have key : ∀ ls : List JStr, (∀ l ∈ ls, parse l = none) →
      processLines parse ls = [] := by
    intro ls
    induction ls with
    | nil => intro _; rfl
    | cons a as ih =>
      intro ha
      rw [processLines_cons_none (ha a (List.mem_cons_self a as))]
      exact ih (fun x hx => ha x (List.mem_cons_of_mem a hx))
  constructor
  · intro chunks
    induction chunks with
    | nil => rfl
    | cons c cs ih => rw [relay, ih, List.map_cons, List.flatten_cons]
  · intro c1 c2 h
    have h1 : processLines parse (splitLines c1) = [] :=
      key _ (fun l hl => h l (List.mem_append_left _ hl))
    have h2 : processLines parse (splitLines c2) = [] :=
      key _ (fun l hl => h l (List.mem_append_right _ hl))
    show processChunk parse c1 ++ (processChunk parse c2 ++ relay parse []) = []
    rw [show processChunk parse c1 = processLines parse (splitLines c1) from rfl,
      show processChunk parse c2 = processLines parse (splitLines c2) from rfl,
      h1, h2]
    rfl

/-- Witness for C9: the record `{"message":{"content":"X"},"done":false}`
cut between two transport chunks produces no output at all — its content
fragment `"X"` never appears. -/
theorem no_cross_chunk_buffering_witness :
    relay exParse [jHalfA.data, jHalfB.data] = [] :=
  (no_cross_chunk_buffering exParse).2 jHalfA.data jHalfB.data (by decide)

/-- C2 (amended): the client-side finalize is idempotent (a second
`finish` call is a no-op), the exchange delivers `onFinish` exactly once
whenever termination routes through `finish` (completion sentinel,
stream closure or abort — whatever messages were seen before), and after
finalize no further message changes the state, so no content update
follows the terminal finalize.  The server-side `[DONE]` sentinel, by
contrast, is emitted once per parsed completion-flagged record, not once
per exchange (see the counterexample). -/
theorem finalize_exactly_once :
    (∀ s : CState, finish (finish s) = finish s) ∧
    (∀ ms : List SMsg, (finish (runClient initCState ms)).finishCalls.length = 1) ∧
    (∀ (s : CState) (m : SMsg), s.finished = true → onmessage s m = s) := by
  refine ⟨?_, ?_, onmessage_of_finished⟩
  · intro s
    exact finish_of_finished (finish_finished s)
  · intro ms
    have h0 : okState initCState := by simp [okState, initCState]
    have h1 := okState_finish (okState_run ms initCState h0)
    have h2 := finish_finished (runClient initCState ms)
    rw [okState, h2] at h1
    simpa using h1

/-- Witness for C2: a delta followed by the sentinel yields exactly one
`onFinish` delivery, and a message arriving on an already-finished state
is a no-op. -/
theorem finalize_exactly_once_witness :
    (finish (runClient initCState
        [SMsg.payload (some "Hi".data), SMsg.doneSentinel])).finishCalls.length = 1 ∧
    onmessage ⟨"Hi".data, true, ["Hi".data], []⟩ SMsg.doneSentinel =
      ⟨"Hi".data, true, ["Hi".data], []⟩ :=
  ⟨finalize_exactly_once.2.1 _, finalize_exactly_once.2.2 _ _ rfl⟩

/-- Counterexample to C2 as stated: a backend stream whose two transport
chunks each carry a `done:true` record makes the server relay emit the
`[DONE]` terminal marker twice in one exchange, and the first marker is
not after the last content-delta event. -/
theorem done_sentinel_twice_cex :
    relay exParse [jA.data, jA.data] =
      [REvent.delta "A".data (some "stop".data), REvent.doneMark,
       REvent.delta "A".data (some "stop".data), REvent.doneMark] ∧
    countDoneMarks (relay exParse [jA.data, jA.data]) = 2 :=
  ⟨by decide, by decide⟩

/-- C4 (amended): for the spec's two-record backend stream the relay
emits exactly the two content-delta events (the second carrying
finish_reason `"stop"`) followed by the `[DONE]` terminal sentinel; the
client accordingly reports cumulative texts `"Hi"` then `"Hi there"` and
finishes once with `"Hi there"`.  Usage counters are not part of the
streamed events; the figures prompt_tokens=5, completion_tokens=3,
total_tokens=8 are what the non-streaming path would report for a body
with `eval_count:3, prompt_eval_count:5`. -/
theorem worked_example :
    relay exParse [jHi.data, jThere.data] =
      [REvent.delta "Hi".data none,
       REvent.delta " there".data (some "stop".data),
       REvent.doneMark] ∧
    (finish (runClient initCState
        ((relay exParse [jHi.data, jThere.data]).map eventToMsg))).updates =
      ["Hi".data, "Hi there".data] ∧
    (finish (runClient initCState
        ((relay exParse [jHi.data, jThere.data]).map eventToMsg))).finishCalls =
      ["Hi there".data] ∧
    nonStreamUsage ⟨some "Hi there".data, true, some 3, some 5⟩ = ⟨5, 3, 8⟩ :=
  ⟨by decide, by decide, by decide, rfl⟩

/-- Counterexample to C4 as stated: the claim's usage report cannot come
from the streaming relay — changing the final record's usage counters
(to eval_count=999, prompt_eval_count=7) leaves the emitted event stream
identical, because the translated chunks carry no usage field
(route.ts lines 149-163). -/
theorem worked_example_cex :
    relay exParse [jHi.data, jThereAlt.data] =
      relay exParse [jHi.data, jThere.data] ∧
    exParse jThereAlt.data = some ⟨some " there".data, true, some 999, some 7⟩ :=
  ⟨by decide, by decide⟩

/-- C6 (amended): given equivalent backend content — a non-streaming
body whose `message.content` equals the concatenation of the streaming
records' contents — the streaming path and the non-streaming path
deliver the same final text to the caller, provided no record follows a
completion-flagged record in the streaming sequence (records after the
first `done:true` are dropped by the streaming pipeline but counted in
the equivalent non-streaming body, see the counterexample). -/
theorem stream_nonstream_equiv (parse : JStr → Option ORecord)
    (chunks : List JStr) (d : ORecord)
    (hgood : goodChunks parse chunks)
    (hbody : nonStreamContent d = streamText parse chunks) :
    (finish (runClient initCState ((relay parse chunks).map eventToMsg))).finishCalls =
      [nonStreamFinal d] := by
  rw [runClient_finish (relay parse chunks) initCState rfl,
    relay_untilDone parse chunks hgood]
  show [] ++ [[] ++ streamText parse chunks] = [nonStreamFinal d]
  rw [List.nil_append, List.nil_append, ← hbody]
  rfl

/-- Witness for C6: for the spec's two-chunk stream and a non-streaming
body carrying `"Hi there"`, both paths finish with `"Hi there"`. -/
theorem stream_nonstream_equiv_witness :
    (finish (runClient initCState
        ((relay exParse [jHi.data, jThere.data]).map eventToMsg))).finishCalls =
      [nonStreamFinal ⟨some "Hi there".data, false, none, none⟩] :=
  stream_nonstream_equiv exParse [jHi.data, jThere.data]
    ⟨some "Hi there".data, false, none, none⟩ (by decide) (by decide)

/-- Counterexample to C6 as stated: for the streaming sequence with
records `A` (done:true) then `B` in one chunk, the streaming path
finishes with `"A"`, while the non-streaming path with the equivalent
body content `"AB"` (the concatenation of the records' contents)
delivers `"AB"`. -/
theorem stream_nonstream_equiv_cex :
    (finish (runClient initCState
        ((relay exParse [jA.data ++ '\n' :: jB.data]).map eventToMsg))).finishCalls =
      ["A".data] ∧
    nonStreamContent ⟨some "AB".data, false, none, none⟩ =
      streamText exParse [jA.data ++ '\n' :: jB.data] ∧
    nonStreamFinal ⟨some "AB".data, false, none, none⟩ = "AB".data ∧
    ("A".data : JStr) ≠ "AB".data :=
  ⟨by decide, by decide, by decide, by decide⟩

/-- C7 (amended): the server-side translation maps `max_tokens` to
`num_predict`, `temperature` to `temperature` and `top_p` to `top_p`
unchanged, with an unset field staying unset (no fabricated default,
also for the token budget); the 1024 floor lives on the client payload
builder instead, which applies `Math.max(max_tokens, 1024)` to every
configured budget — raising budgets below 1024, not only unset ones, and
passing budgets of at least 1024 through unchanged. -/
theorem outbound_field_mapping (α : Type) (b : GenericBody α)
    (cfg : ClientModelConfig α) (msgs : List (JStr × JStr)) (stream : Bool) :
    (toOllamaRequest α b).options.num_predict = b.max_tokens ∧
    (toOllamaRequest α b).options.temperature = b.temperature ∧
    (toOllamaRequest α b).options.top_p = b.top_p ∧
    (mkRequestPayload α cfg msgs stream).max_tokens = max cfg.max_tokens 1024 ∧
    1024 ≤ (mkRequestPayload α cfg msgs stream).max_tokens := by
  refine ⟨rfl, rfl, rfl, rfl, ?_⟩
  exact le_max_right cfg.max_tokens 1024

/-- Counterexample to C7 as stated: a caller-specified budget of 100 is
not passed through unchanged by the client payload builder (it becomes
1024), and the server path does not default an unset budget to 1024 (it
stays unset). -/
theorem outbound_field_mapping_cex :
    (mkRequestPayload Nat ⟨"m".data, 1, 0, 0, 1, 100⟩ [] true).max_tokens = 1024 ∧
    (mkRequestPayload Nat ⟨"m".data, 1, 0, 0, 1, 100⟩ [] true).max_tokens ≠ 100 ∧
    (toOllamaRequest Nat ⟨"m".data, [], none, none, none, none⟩).options.num_predict
      = none :=
  ⟨rfl, by decide, rfl⟩

/-- C8: an inbound request failing the authorization check is answered
with HTTP 401 carrying the auth collaborator's structured result, and no
backend fetch is issued; the backend fetch happens exactly when the
check succeeds (route.ts lines 39-45). -/
theorem auth_gate (α : Type) (a : AuthResult) (u ex cp : JStr)
    (b : GenericBody α) :
    (a.error = true →
      requestOllamaGate α a u ex cp b = GateOutcome.unauthorized 401 a) ∧
    (a.error = false →
      requestOllamaGate α a u ex cp b =
        GateOutcome.forward (serverFetchUrl u ex cp) (toOllamaRequest α b)) := by
  constructor <;> intro h <;> simp [requestOllamaGate, h]

/-- Witness for C8 at concrete requests: a failed check yields the 401
outcome with no backend request, a passing check yields the forward
outcome. -/
theorem auth_gate_witness :
    requestOllamaGate Nat ⟨true, "unauthorized".data⟩ "myhost".data "ex".data
        "api/chat".data ⟨"m".data, [], none, none, none, none⟩ =
      GateOutcome.unauthorized 401 ⟨true, "unauthorized".data⟩ ∧
    requestOllamaGate Nat ⟨false, []⟩ "myhost".data "ex".data
        "api/chat".data ⟨"m".data, [], none, none, none, none⟩ =
      GateOutcome.forward (serverFetchUrl "myhost".data "ex".data "api/chat".data)
        (toOllamaRequest Nat ⟨"m".data, [], none, none, none, none⟩) :=
  ⟨(auth_gate Nat ⟨true, "unauthorized".data⟩ "myhost".data "ex".data
      "api/chat".data ⟨"m".data, [], none, none, none, none⟩).1 rfl,
   (auth_gate Nat ⟨false, []⟩ "myhost".data "ex".data
      "api/chat".data ⟨"m".data, [], none, none, none, none⟩).2 rfl⟩

theorem stripTrailingSlash_append (a u : JStr) (hu : u ≠ []) :
    stripTrailingSlash (a ++ u) = a ++ stripTrailingSlash u := by
  unfold stripTrailingSlash
  rw [List.getLast?_append_of_ne_nil a hu]
  by_cases h : u.getLast? = some '/'
  · rw [if_pos h, if_pos h, List.dropLast_append_of_ne_nil a hu]
  · rw [if_neg h, if_neg h]

/-- C10 (amended): the server-side translator prefixes `http://` to a
nonempty configured base URL that does not contain `"://"`, strips one
trailing slash, and joins the chat path with a single inserted `/`; the
client-side translator prefixes `https://` and joins the same way
provided the (slash-stripped) base starts with neither `"http"` nor the
internal API path — a base merely lacking a scheme is not enough (a base
such as `httpserver.local` is left unprefixed, see the counterexample);
one trailing slash is always stripped before joining. -/
theorem url_construction (u ex cp dh ap p : JStr) (isApp : Bool)
    (hu : u ≠ [])
    (hs : jsIncludes "://".data u = false)
    (hc1 : "http".data.isPrefixOf (stripTrailingSlash u) = false)
    (hc2 : ap.isPrefixOf (stripTrailingSlash u) = false) :
    serverFetchUrl u ex cp =
      "http://".data ++ stripTrailingSlash u ++ '/' :: cp ∧
    clientPathUrl true isApp u dh ap p =
      "https://".data ++ stripTrailingSlash u ++ '/' :: p ∧
    (∀ v : JStr, stripTrailingSlash (v ++ ['/']) = v) := by
  refine ⟨?_, ?_, ?_⟩
  · unfold serverFetchUrl
    simp only [if_neg hu, hs, Bool.false_eq_true, if_false]
    rw [stripTrailingSlash_append _ u hu, List.append_assoc]
  · have hc1x : List.isPrefixOf ['h', 't', 't', 'p'] (stripTrailingSlash u) = false := hc1
    unfold clientPathUrl
    simp only [if_true, if_neg hu]
    rw [show (if u.getLast? = some '/' then u.dropLast else u) = stripTrailingSlash u
        from rfl, hc1x, hc2]
    simp [List.append_assoc]
  · intro v
    unfold stripTrailingSlash
    rw [if_pos (List.getLast?_concat v), List.dropLast_concat]

/-- Witness for C10: the configured base `myhost.example/` (no scheme,
trailing slash) yields `http://myhost.example/api/chat` on the server
side and `https://myhost.example/api/chat` on the client side. -/
theorem url_construction_witness :
    serverFetchUrl "myhost.example/".data "ex".data "api/chat".data =
      "http://".data ++ stripTrailingSlash "myhost.example/".data
        ++ '/' :: "api/chat".data ∧
    clientPathUrl true false "myhost.example/".data "dh".data
        "/api/ollama".data "api/chat".data =
      "https://".data ++ stripTrailingSlash "myhost.example/".data
        ++ '/' :: "api/chat".data :=
  ⟨(url_construction "myhost.example/".data "ex".data "api/chat".data "dh".data
      "/api/ollama".data "api/chat".data false
      (by decide) (by decide) (by decide) (by decide)).1,
   (url_construction "myhost.example/".data "ex".data "api/chat".data "dh".data
      "/api/ollama".data "api/chat".data false
      (by decide) (by decide) (by decide) (by decide)).2.1⟩

/-- Counterexample to C10 as stated: the configured base
`httpserver.local` contains no scheme, yet the client-side translator
does not prefix `https://` — its check is `startsWith("http")`, which
this base satisfies — so the joined URL keeps no scheme at all. -/
theorem url_construction_cex :
    clientPathUrl true false "httpserver.local".data "dh".data
        "/api/ollama".data "api/chat".data = "httpserver.local/api/chat".data ∧
    jsIncludes "://".data "httpserver.local".data = false ∧
    "https://".data.isPrefixOf "httpserver.local/api/chat".data = false :=
  ⟨by decide, by decide, by decide⟩

end NCOllama
